import Mathlib

/-!
# Verification of the order-placement core of `main.py`

A shallow embedding of the `create_order` endpoint (the order-placement
transaction) of the FastAPI e-commerce service, together with the SQL
statements it issues against the relational store.

Modelling conventions:
* MySQL tables become Lean lists of rows; the `AUTO_INCREMENT` counter of
  the `orders` table is an explicit `nextOrderId` field.  On rollback the
  tables are restored but the auto-increment counter is not rewound,
  matching InnoDB behaviour.
* Python / SQL numeric amounts (`float` / `DECIMAL`) are modelled as exact
  rationals (`Rat`); integer columns as `Int`.
* `datetime.now().strftime(...)` and `os.urandom(2)` are ambient effects;
  they enter the model as explicit parameters `now : String` (the
  second-resolution timestamp string) and `rand : Nat` (the 16-bit value of
  the two random bytes).
* Each `raise HTTPException` site in `create_order` (and the pydantic
  validation layer) becomes a constructor of the `Failure` type, carrying
  the data that appears in the exception's detail message.
* Every SQL statement executed is also recorded in a `DbOp` trace, so that
  statement ordering (lock acquisition order, rollback-before-report,
  no reads before the order-number is built) is observable.
-/

namespace ECommerce

/-- A row of the `products` table: the columns `create_order` touches
(`SELECT stock, price, is_deleted ... FOR UPDATE` and
`UPDATE products SET stock = stock - %s, updated_at = %s ...`). -/
structure Product where
  id : Int
  stock : Int
  price : Rat
  is_deleted : Bool
  updated_at : String
deriving DecidableEq, Repr

/-- A row of the `orders` table, the columns used by `create_order`:
`INSERT INTO orders (user_id, number, status, created_at, updated_at)`
and `UPDATE orders SET total_amount = %s WHERE id = %s`. -/
structure OrderRow where
  id : Int
  user_id : Int
  number : String
  status : String
  total_amount : Rat
  created_at : String
  updated_at : String
deriving DecidableEq, Repr

/-- A row of the `order_items` table:
`INSERT INTO order_items (order_id, product_id, quantity, unit_price,
subtotal, created_at, updated_at)`. -/
structure OrderItemRow where
  order_id : Int
  product_id : Int
  quantity : Int
  unit_price : Rat
  subtotal : Rat
  created_at : String
  updated_at : String
deriving DecidableEq, Repr

/-- The relational store: the three tables `create_order` writes, plus the
auto-increment counter of `orders` (the value `cursor.lastrowid` reports
for the next insert). -/
structure Store where
  products : List Product
  orders : List OrderRow
  order_items : List OrderItemRow
  nextOrderId : Int
deriving DecidableEq, Repr

/-- One line of the request body: pydantic `OrderItemRequest`
(`product_id`, `quantity`), before validation, so the fields are raw
integers. -/
structure OrderItemRequest where
  product_id : Int
  quantity : Int
deriving DecidableEq, Repr

/-- The request body: pydantic `CreateOrderRequest` (`user_id`, `items`),
before validation. -/
structure CreateOrderRequest where
  user_id : Int
  items : List OrderItemRequest
deriving DecidableEq, Repr

/-- The pydantic field constraints on `CreateOrderRequest` /
`OrderItemRequest`: `user_id = Field(..., gt=0)`,
`items = Field(..., min_items=1)`, `product_id = Field(..., gt=0)`,
`quantity = Field(..., gt=0)`.  FastAPI runs this validation before the
route handler (and hence before any database work). -/
def validateCreateOrderRequest (r : CreateOrderRequest) : Bool :=
  0 < r.user_id && !r.items.isEmpty &&
    r.items.all (fun it => 0 < it.product_id && 0 < it.quantity)

/-- The failure taxonomy of order placement: one constructor per
`raise HTTPException` site of `create_order` in `main.py`, plus
`invalidInput` for the pydantic validation layer.  Each constructor
carries the data interpolated into that site's detail message. -/
inductive Failure where
  | invalidInput
  | persistenceFailure
  | productNotFound (product_id : Int)
  | productUnavailable (product_id : Int)
  | insufficientStock (product_id : Int) (available : Int) (requested : Int)
  | concurrentStockConflict (product_id : Int)
deriving DecidableEq, Repr

/-- The HTTP status code each failure site raises in `main.py`
(422 is FastAPI's code for pydantic validation errors). -/
def Failure.httpStatus : Failure → Nat
  | .invalidInput => 422
  | .persistenceFailure => 500
  | .productNotFound _ => 404
  | .productUnavailable _ => 400
  | .insufficientStock _ _ _ => 400
  | .concurrentStockConflict _ => 400

/-- The SQL statements (and transaction-control calls) `create_order`
issues, in execution order.  `selectForUpdate` is the row-locking read, so
the sequence of `selectForUpdate` entries in a trace is the lock
acquisition order. -/
inductive DbOp where
  | beginTxn
  | selectForUpdate (product_id : Int)
  | insertOrder (user_id : Int) (number : String)
  | updateStock (product_id : Int) (quantity : Int)
  | insertOrderItem (order_id : Int) (product_id : Int) (quantity : Int)
  | updateOrderTotal (order_id : Int) (amount : Rat)
  | commit
  | rollback
deriving DecidableEq, Repr

/-- The statement `SELECT stock, price, is_deleted FROM products WHERE id = %s FOR
UPDATE` followed by `fetchone()`: the first row with the given id (`id` is
the primary key, so at most one row matches in a well-formed store). -/
def selectForUpdate (s : Store) (pid : Int) : Option Product :=
  s.products.find? (fun p => p.id == pid)

/-- The effect of the conditional `UPDATE` on one row: decrement iff the
row matches `WHERE id = %s AND stock >= %s`. -/
def stockDecApplied (pid qty : Int) (now : String) (p : Product) : Product :=
  if p.id == pid && qty ≤ p.stock then
    { p with stock := p.stock - qty, updated_at := now }
  else p

/-- The statement `UPDATE products SET stock = stock - %s, updated_at = %s WHERE id = %s
AND stock >= %s`: decrements every row matching the `WHERE` clause and
returns the new store together with `cursor.rowcount`, the number of rows
the statement matched. -/
def updateStockConditional (s : Store) (pid : Int) (qty : Int) (now : String) :
    Store × Nat :=
  ({ s with products := s.products.map (stockDecApplied pid qty now) },
    (s.products.filter (fun p => p.id == pid && qty ≤ p.stock)).length)

/-- Lines 212–220 of `main.py`: run the conditional stock `UPDATE`, then
check `cursor.rowcount`; zero affected rows is reported as the
`ConcurrentStockConflict` failure (the race-detection branch), otherwise
the updated store is kept. -/
def applyStockDecrement (s : Store) (pid : Int) (qty : Int) (now : String) :
    Except Failure Store :=
  if (updateStockConditional s pid qty now).2 == 0 then
    .error (.concurrentStockConflict pid)
  else .ok (updateStockConditional s pid qty now).1

/-- The statement `INSERT INTO orders (user_id, number, status, created_at, updated_at)
VALUES (%s, %s, pending, %s, %s)` (the status value is the quoted literal
pending).  Modelled from the spec: the schema of
the `orders` table is not in the source; the `INSERT` omits `total_amount`,
and the spec says the row is created "in `pending` status with zero total
amount", so the column default `0` is taken from the spec.  The row id is
the auto-increment counter, which advances. -/
def pendingOrderRow (s : Store) (uid : Int) (number now : String) :
    OrderRow :=
  { id := s.nextOrderId, user_id := uid, number := number,
    status := "pending", total_amount := 0,
    created_at := now, updated_at := now }

def insertOrderRow (s : Store) (uid : Int) (number : String) (now : String) :
    Store :=
  { s with
      orders := s.orders ++ [pendingOrderRow s uid number now],
      nextOrderId := s.nextOrderId + 1 }

/-- The statement `INSERT INTO order_items (...) VALUES (...)`: appends one line row. -/
def insertOrderItemRow (s : Store) (row : OrderItemRow) : Store :=
  { s with order_items := s.order_items ++ [row] }

/-- The statement `UPDATE orders SET total_amount = %s WHERE id = %s` (note: this
statement does not touch `updated_at`). -/
def updateOrderTotal (s : Store) (oid : Int) (amount : Rat) : Store :=
  { s with
      orders := s.orders.map (fun o =>
        if o.id == oid then { o with total_amount := amount } else o) }

/-- Lowercase hexadecimal digit, as produced by Python's `bytes.hex()`. -/
def hexDigit (n : Nat) : Char :=
  if n < 10 then Char.ofNat (48 + n) else Char.ofNat (87 + n)

/-- The four lowercase hex digits of a 16-bit value: `os.urandom(2).hex()`
where `rand` is the big-endian value of the two random bytes. -/
def hex4 (n : Nat) : String :=
  String.mk [hexDigit (n / 4096 % 16), hexDigit (n / 256 % 16),
             hexDigit (n / 16 % 16), hexDigit (n % 16)]

/-- Line 173 of `main.py`:
an order number is the literal `"ORD"`, the second-resolution timestamp
`datetime.now().strftime(yyyymmddhhmmss)`, and the hex of two bytes from
`os.urandom`.  It is a pure function of the clock and the random bytes:
no store read, no counter. -/
def genOrderNumber (now : String) (rand : Nat) : String :=
  "ORD" ++ now ++ hex4 rand

/-- The call `db.rollback()`: the tables are restored to the transaction's start
snapshot `pre`; the auto-increment counter is not rewound (InnoDB keeps
ids consumed by a rolled-back insert). -/
def rollbackTo (pre cur : Store) : Store :=
  { pre with nextOrderId := cur.nextOrderId }

/-- The state threaded through the `for item in order_data.items` loop:
the store as mutated so far, the running `total_amount`, and the trace of
statements issued so far. -/
structure LoopState where
  store : Store
  total : Rat
  ops : List DbOp
deriving Repr

/-- The body of the per-item loop, lines 187–226 of `main.py`: locked read;
`ProductNotFound` if `fetchone()` returned nothing; `ProductUnavailable` if
the soft-delete flag is set; `InsufficientStock` if the read stock is below
the requested quantity; then the conditional decrement with the
`ConcurrentStockConflict` check on `rowcount`; then the `order_items`
insert and the accumulation of the subtotal.  A failure carries the trace
of statements issued before the exception. -/
def processItem (now : String) (order_id : Int) (st : LoopState)
    (item : OrderItemRequest) : Except (Failure × List DbOp) LoopState :=
  let opsAfterRead := st.ops ++ [DbOp.selectForUpdate item.product_id]
  match selectForUpdate st.store item.product_id with
  | none => .error (.productNotFound item.product_id, opsAfterRead)
  | some product =>
    if product.is_deleted then
      .error (.productUnavailable item.product_id, opsAfterRead)
    else if product.stock < item.quantity then
      .error (.insufficientStock item.product_id product.stock item.quantity,
              opsAfterRead)
    else
      let unit_price := product.price
      let subtotal := unit_price * (item.quantity : Rat)
      let opsAfterWrite :=
        opsAfterRead ++ [DbOp.updateStock item.product_id item.quantity]
      match applyStockDecrement st.store item.product_id item.quantity now with
      | .error f => .error (f, opsAfterWrite)
      | .ok s' =>
        .ok { store := insertOrderItemRow s'
                { order_id := order_id, product_id := item.product_id,
                  quantity := item.quantity, unit_price := unit_price,
                  subtotal := subtotal, created_at := now, updated_at := now },
              total := st.total + subtotal,
              ops := opsAfterWrite ++
                [DbOp.insertOrderItem order_id item.product_id item.quantity] }

/-- The `for item in order_data.items` loop: left-to-right over the lines
in the order the caller supplied them, stopping at the first failure. -/
def processItems (now : String) (order_id : Int) :
    List OrderItemRequest → LoopState → Except (Failure × List DbOp) LoopState
  | [], st => .ok st
  | item :: rest, st =>
    match processItem now order_id st item with
    | .ok st' => processItems now order_id rest st'
    | .error e => .error e

/-- The `create_order` route of `main.py` (lines 162–249).  FastAPI first
runs the pydantic validation of `CreateOrderRequest`; an invalid body is
rejected with 422 before the handler (and hence before any transaction) is
reached.  The handler then runs `db.start_transaction()`, builds the order
number, inserts the order row (aborting with the 500 `PersistenceFailure`
when `cursor.lastrowid` is falsy), runs the per-item loop, writes the
accumulated total, and commits.  Every `except` arm calls `db.rollback()`
before re-raising, so on any failure the tables are restored to the
pre-call snapshot.  Returns the result, the final store, and the trace of
statements issued. -/
def create_order (now : String) (rand : Nat) (req : CreateOrderRequest)
    (s : Store) : Except Failure (Int × String) × Store × List DbOp :=
  if validateCreateOrderRequest req then
    let order_number := genOrderNumber now rand
    let order_id := s.nextOrderId
    let s1 := insertOrderRow s req.user_id order_number now
    let ops : List DbOp := [DbOp.beginTxn, DbOp.insertOrder req.user_id order_number]
    if order_id == 0 then
      (.error .persistenceFailure, rollbackTo s s1, ops ++ [DbOp.rollback])
    else
      match processItems now order_id req.items ⟨s1, 0, ops⟩ with
      | .error (e, errOps) => (.error e, rollbackTo s s1, errOps ++ [DbOp.rollback])
      | .ok st =>
        let s2 := updateOrderTotal st.store order_id st.total
        (.ok (order_id, order_number), s2,
          st.ops ++ [DbOp.updateOrderTotal order_id st.total, DbOp.commit])
  else
    (.error .invalidInput, s, [])

/-- Stock of the product row with the given id, if present. -/
def stockOf (s : Store) (pid : Int) : Option Int :=
  (s.products.find? (fun p => p.id == pid)).map (·.stock)

/-- Price of the product row with the given id (`0` if absent; only used
where presence is known). -/
def unitPriceOf (s : Store) (pid : Int) : Rat :=
  ((s.products.find? (fun p => p.id == pid)).map (·.price)).getD 0

/-- Total quantity requested for one product id across all lines of a
request (a product id may appear in several lines). -/
def totalRequested (items : List OrderItemRequest) (pid : Int) : Int :=
  ((items.filter (fun it => it.product_id == pid)).map (·.quantity)).sum

/-- The `order_items` row the loop body builds for one request line, with
the unit price read (under the row lock) from the given store. -/
def mkItemRow (s : Store) (oid : Int) (now : String) (it : OrderItemRequest) :
    OrderItemRow :=
  { order_id := oid, product_id := it.product_id, quantity := it.quantity,
    unit_price := unitPriceOf s it.product_id,
    subtotal := unitPriceOf s it.product_id * (it.quantity : Rat),
    created_at := now, updated_at := now }

/-- The three statements one successful loop iteration issues. -/
def lineOps (oid : Int) (it : OrderItemRequest) : List DbOp :=
  [DbOp.selectForUpdate it.product_id,
   DbOp.updateStock it.product_id it.quantity,
   DbOp.insertOrderItem oid it.product_id it.quantity]

/-- The sequence of product ids on which `FOR UPDATE` row locks were
requested, in acquisition order, read off a statement trace. -/
def lockOrder (ops : List DbOp) : List Int :=
  ops.filterMap (fun op =>
    match op with
    | .selectForUpdate pid => some pid
    | _ => none)

/-- A small concrete store used to instantiate the theorems below:
product 1 (stock 5, price 10), product 2 (stock 2, price 3), and the
soft-deleted product 3. -/
def exStore : Store :=
  { products := [⟨1, 5, 10, false, "t0"⟩, ⟨2, 2, 3, false, "t0"⟩,
                 ⟨3, 4, 1, true, "t0"⟩],
    orders := [], order_items := [], nextOrderId := 1 }

/-- The store `exStore` with an exhausted auto-increment counter (`lastrowid = 0`). -/
def exStoreZero : Store :=
  { products := exStore.products,
    orders := [], order_items := [], nextOrderId := 0 }

/-! ## Facts about the conditional stock update -/

theorem stockDecApplied_id (pid qty : Int) (now : String) (p : Product) :
    (stockDecApplied pid qty now p).id = p.id := by
  unfold stockDecApplied; split <;> rfl

theorem stockDecApplied_price (pid qty : Int) (now : String) (p : Product) :
    (stockDecApplied pid qty now p).price = p.price := by
  unfold stockDecApplied; split <;> rfl

theorem stockDecApplied_nonneg (pid qty : Int) (now : String) (p : Product)
    (hp : 0 ≤ p.stock) : 0 ≤ (stockDecApplied pid qty now p).stock := by
  unfold stockDecApplied
  split
  case isTrue h =>
    simp only [Bool.and_eq_true, decide_eq_true_eq] at h
    simp only []
    omega
  case isFalse h => exact hp

theorem find?_map_stockDec (l : List Product) (pid qty : Int) (now : String)
    (pid' : Int) :
    (l.map (stockDecApplied pid qty now)).find? (fun p => p.id == pid') =
      (l.find? (fun p => p.id == pid')).map (stockDecApplied pid qty now) := by
  have hpred : ((fun p : Product => p.id == pid') ∘ stockDecApplied pid qty now)
      = (fun p : Product => p.id == pid') := by
    funext p
    simp [Function.comp, stockDecApplied_id]
  rw [List.find?_map, hpred]

theorem stockOf_map_ne (s s' : Store) (pid qty : Int) (now : String) (pid' : Int)
    (h : s'.products = s.products.map (stockDecApplied pid qty now))
    (hne : pid' ≠ pid) : stockOf s' pid' = stockOf s pid' := by
  unfold stockOf
  rw [h, find?_map_stockDec]
  cases hf : s.products.find? (fun p => p.id == pid') with
  | none => rfl
  | some p =>
    have hp := List.find?_some hf
    simp only [beq_iff_eq] at hp
    simp only [Option.map_some']
    unfold stockDecApplied
    have hc : (p.id == pid && decide (qty ≤ p.stock)) = false := by
      have : (p.id == pid) = false := by
        simp only [beq_eq_false_iff_ne, ne_eq]
        omega
      simp [this]
    rw [hc]
    simp

theorem stockOf_map_dec (s s' : Store) (pid qty : Int) (now : String)
    (p : Product)
    (h : s'.products = s.products.map (stockDecApplied pid qty now))
    (hf : s.products.find? (fun q => q.id == pid) = some p)
    (hq : qty ≤ p.stock) : stockOf s' pid = some (p.stock - qty) := by
  unfold stockOf
  rw [h, find?_map_stockDec, hf]
  have hp := List.find?_some hf
  simp only [beq_iff_eq] at hp
  simp only [Option.map_some']
  unfold stockDecApplied
  have hc : (p.id == pid && decide (qty ≤ p.stock)) = true := by
    simp [hp, hq]
  rw [hc]
  simp

theorem unitPriceOf_map (s s' : Store) (pid qty : Int) (now : String)
    (h : s'.products = s.products.map (stockDecApplied pid qty now))
    (pid' : Int) : unitPriceOf s' pid' = unitPriceOf s pid' := by
  unfold unitPriceOf
  rw [h, find?_map_stockDec]
  cases hf : s.products.find? (fun p => p.id == pid') with
  | none => rfl
  | some p => simp [stockDecApplied_price]

theorem selectForUpdate_map_isSome (s s' : Store) (pid qty : Int) (now : String)
    (h : s'.products = s.products.map (stockDecApplied pid qty now))
    (pid' : Int) :
    (selectForUpdate s' pid').isSome = (selectForUpdate s pid').isSome := by
  unfold selectForUpdate
  rw [h, find?_map_stockDec]
  cases s.products.find? (fun p => p.id == pid') <;> rfl

theorem products_map_nonneg (s s' : Store) (pid qty : Int) (now : String)
    (h : s'.products = s.products.map (stockDecApplied pid qty now))
    (hn : ∀ p ∈ s.products, 0 ≤ p.stock) :
    ∀ p ∈ s'.products, 0 ≤ p.stock := by
  intro q hq
  rw [h] at hq
  obtain ⟨p, hp, rfl⟩ := List.mem_map.mp hq
  exact stockDecApplied_nonneg pid qty now p (hn p hp)

/-! ## Characterization of one loop iteration -/

theorem processItem_ok (now : String) (oid : Int) (st st' : LoopState)
    (item : OrderItemRequest)
    (h : processItem now oid st item = .ok st') :
    ∃ p, selectForUpdate st.store item.product_id = some p ∧
      p.is_deleted = false ∧ item.quantity ≤ p.stock ∧
      st'.store.products =
        st.store.products.map (stockDecApplied item.product_id item.quantity now) ∧
      st'.store.orders = st.store.orders ∧
      st'.store.nextOrderId = st.store.nextOrderId ∧
      st'.store.order_items =
        st.store.order_items ++ [mkItemRow st.store oid now item] ∧
      st'.total = st.total +
        unitPriceOf st.store item.product_id * (item.quantity : Rat) ∧
      st'.ops = st.ops ++ lineOps oid item := by
  unfold processItem at h
  cases hf : selectForUpdate st.store item.product_id with
  | none => rw [hf] at h; exact absurd h (by simp)
  | some p =>
    rw [hf] at h
    refine ⟨p, rfl, ?_⟩
    by_cases hd : p.is_deleted
    · simp [hd] at h
    · by_cases hs : p.stock < item.quantity
      · simp [hd, hs] at h
      · have hmem : p ∈ st.store.products := List.mem_of_find?_eq_some hf
        have hcnt : (st.store.products.filter
            (fun q => q.id == item.product_id &&
              item.quantity ≤ q.stock)).length ≠ 0 := by
          intro hzero
          have hnil := List.length_eq_zero.mp hzero
          have := List.filter_eq_nil.mp hnil p hmem
          have hpid := List.find?_some hf
          simp only [beq_iff_eq] at hpid
          simp [hpid] at this
          omega
        have happly : applyStockDecrement st.store item.product_id
            item.quantity now = .ok (updateStockConditional st.store
              item.product_id item.quantity now).1 := by
          unfold applyStockDecrement
          rw [if_neg ?_]
          simp only [beq_iff_eq]
          exact hcnt
        dsimp only at h
        rw [if_neg hd, if_neg hs, happly] at h
        dsimp only at h
        simp only [Except.ok.injEq] at h
        have hprice : unitPriceOf st.store item.product_id = p.price := by
          unfold selectForUpdate at hf
          unfold unitPriceOf
          rw [hf]
          rfl
        refine ⟨by simpa using hd, by omega, ?_, ?_, ?_, ?_, ?_, ?_⟩ <;>
          rw [← h] <;>
          simp [insertOrderItemRow, updateStockConditional, mkItemRow, hprice,
            lineOps, List.append_assoc]

theorem processItem_error_ops (now : String) (oid : Int) (st : LoopState)
    (item : OrderItemRequest) (e : Failure) (o : List DbOp)
    (h : processItem now oid st item = .error (e, o)) :
    ∃ t, o = st.ops ++ t := by
  unfold processItem at h
  cases hf : selectForUpdate st.store item.product_id with
  | none =>
    rw [hf] at h
    simp only [Except.error.injEq, Prod.mk.injEq] at h
    exact ⟨_, h.2.symm⟩
  | some p =>
    rw [hf] at h
    dsimp only at h
    by_cases hd : p.is_deleted = true
    · rw [if_pos hd] at h
      simp only [Except.error.injEq, Prod.mk.injEq] at h
      exact ⟨_, h.2.symm⟩
    · rw [if_neg hd] at h
      by_cases hs : p.stock < item.quantity
      · rw [if_pos hs] at h
        simp only [Except.error.injEq, Prod.mk.injEq] at h
        exact ⟨_, h.2.symm⟩
      · rw [if_neg hs] at h
        cases ha : applyStockDecrement st.store item.product_id
            item.quantity now with
        | ok s1 => rw [ha] at h; simp at h
        | error f =>
          rw [ha] at h
          simp only [Except.error.injEq, Prod.mk.injEq] at h
          refine ⟨[DbOp.selectForUpdate item.product_id,
            DbOp.updateStock item.product_id item.quantity], ?_⟩
          rw [← h.2, List.append_assoc]
          rfl

theorem totalRequested_cons (it : OrderItemRequest)
    (rest : List OrderItemRequest) (pid : Int) :
    totalRequested (it :: rest) pid =
      (if it.product_id = pid then it.quantity else 0) +
        totalRequested rest pid := by
  unfold totalRequested
  rw [List.filter_cons]
  by_cases hc : it.product_id = pid
  · simp [hc]
  · simp [hc]

/-! ## Characterization of the whole loop -/

theorem processItems_ok (now : String) (oid : Int) :
    ∀ (items : List OrderItemRequest) (st st' : LoopState),
    processItems now oid items st = .ok st' →
      st'.store.orders = st.store.orders ∧
      st'.store.nextOrderId = st.store.nextOrderId ∧
      st'.store.order_items =
        st.store.order_items ++ items.map (mkItemRow st.store oid now) ∧
      st'.total = st.total +
        ((items.map fun it =>
          unitPriceOf st.store it.product_id * (it.quantity : Rat)).sum) ∧
      st'.ops = st.ops ++ items.flatMap (lineOps oid) ∧
      (∀ pid, stockOf st'.store pid =
        (stockOf st.store pid).map (fun v => v - totalRequested items pid)) ∧
      (∀ pid, unitPriceOf st'.store pid = unitPriceOf st.store pid) ∧
      (∀ it ∈ items, (selectForUpdate st.store it.product_id).isSome) ∧
      ((∀ p ∈ st.store.products, 0 ≤ p.stock) →
        ∀ p ∈ st'.store.products, 0 ≤ p.stock) := by
  intro items
  induction items with
  | nil =>
    intro st st' h
    unfold processItems at h
    simp only [Except.ok.injEq] at h
    subst h
    refine ⟨rfl, rfl, by simp, by simp, by simp, ?_, fun _ => rfl, by simp,
      fun hn => hn⟩
    intro pid
    cases stockOf st.store pid <;> simp [totalRequested]
  | cons item rest ih =>
    intro st st' h
    unfold processItems at h
    cases hstep : processItem now oid st item with
    | error e => rw [hstep] at h; exact absurd h (by simp)
    | ok st1 =>
      rw [hstep] at h
      dsimp only at h
      obtain ⟨p, hf, hd, hq, hprod, hord, hnid, hitems, htot, hops⟩ :=
        processItem_ok now oid st st1 item hstep
      obtain ⟨iord, inid, iitems, itot, iops, istock, iprice, isome, inn⟩ :=
        ih st1 st' h
      have hmk : rest.map (mkItemRow st1.store oid now) =
          rest.map (mkItemRow st.store oid now) :=
        List.map_congr_left (fun a _ => by
          unfold mkItemRow
          rw [unitPriceOf_map st.store st1.store item.product_id item.quantity
            now hprod])
      have hpricemap : (rest.map fun it =>
          unitPriceOf st1.store it.product_id * (it.quantity : Rat)) =
          (rest.map fun it =>
            unitPriceOf st.store it.product_id * (it.quantity : Rat)) :=
        List.map_congr_left (fun a _ => by
          rw [unitPriceOf_map st.store st1.store item.product_id item.quantity
            now hprod])
      refine ⟨iord.trans hord, inid.trans hnid, ?_, ?_, ?_, ?_, ?_, ?_, ?_⟩
      · rw [iitems, hmk, hitems, List.map_cons, List.append_assoc,
          List.singleton_append]
      · rw [itot, hpricemap, htot, List.map_cons, List.sum_cons, add_assoc]
      · rw [iops, hops, List.flatMap_cons, List.append_assoc]
      · intro pid
        by_cases hpid : pid = item.product_id
        · subst hpid
          have hsf : st.store.products.find?
              (fun q => q.id == item.product_id) = some p := hf
          have h1 : stockOf st1.store item.product_id =
              some (p.stock - item.quantity) :=
            stockOf_map_dec st.store st1.store item.product_id item.quantity
              now p hprod hsf hq
          have h0 : stockOf st.store item.product_id = some p.stock := by
            unfold stockOf
            rw [hsf]
            rfl
          rw [istock item.product_id, h1, h0, totalRequested_cons]
          simp only [if_pos rfl, Option.map_some', Option.some.injEq,
            if_true]
          omega
        · have h1 : stockOf st1.store pid = stockOf st.store pid :=
            stockOf_map_ne st.store st1.store item.product_id item.quantity
              now pid hprod hpid
          rw [istock pid, h1, totalRequested_cons,
            if_neg (fun hcc => hpid hcc.symm), zero_add]
      · intro pid
        exact (iprice pid).trans (unitPriceOf_map st.store st1.store
          item.product_id item.quantity now hprod pid)
      · intro it hmem
        rcases List.mem_cons.mp hmem with hh | hh
        · subst hh
          rw [hf]
          rfl
        · have := isome it hh
          rwa [selectForUpdate_map_isSome st.store st1.store item.product_id
            item.quantity now hprod it.product_id] at this
      · intro hn
        exact inn (products_map_nonneg st.store st1.store item.product_id
          item.quantity now hprod hn)

theorem processItems_error_ops (now : String) (oid : Int) :
    ∀ (items : List OrderItemRequest) (st : LoopState) (e : Failure)
      (o : List DbOp),
    processItems now oid items st = .error (e, o) → ∃ t, o = st.ops ++ t := by
  intro items
  induction items with
  | nil => intro st e o h; exact absurd h (by simp [processItems])
  | cons item rest ih =>
    intro st e o h
    unfold processItems at h
    cases hstep : processItem now oid st item with
    | error pr =>
      rw [hstep] at h
      dsimp only at h
      simp only [Except.error.injEq] at h
      exact processItem_error_ops now oid st item e o (h ▸ hstep)
    | ok st1 =>
      rw [hstep] at h
      dsimp only at h
      obtain ⟨t, ht⟩ := ih st1 e o h
      obtain ⟨p, -, -, -, -, -, -, -, -, hops⟩ :=
        processItem_ok now oid st st1 item hstep
      exact ⟨lineOps oid item ++ t, by rw [ht, hops, List.append_assoc]⟩

/-! ## Top-level branch analysis of the route -/

theorem create_order_ok_elim (now : String) (rand : Nat)
    (req : CreateOrderRequest) (s : Store) (oid : Int) (num : String)
    (h : (create_order now rand req s).1 = .ok (oid, num)) :
    validateCreateOrderRequest req = true ∧ oid = s.nextOrderId ∧
    num = genOrderNumber now rand ∧
    ∃ st : LoopState,
      processItems now s.nextOrderId req.items
        ⟨insertOrderRow s req.user_id (genOrderNumber now rand) now, 0,
         [DbOp.beginTxn,
          DbOp.insertOrder req.user_id (genOrderNumber now rand)]⟩ = .ok st ∧
      create_order now rand req s =
        (.ok (s.nextOrderId, genOrderNumber now rand),
         updateOrderTotal st.store s.nextOrderId st.total,
         st.ops ++ [DbOp.updateOrderTotal s.nextOrderId st.total,
           DbOp.commit]) := by
  unfold create_order at h ⊢
  cases hv : validateCreateOrderRequest req with
  | false => rw [hv] at h; simp at h
  | true =>
    rw [hv] at h
    simp only [if_pos rfl, if_true] at h ⊢
    by_cases h0 : (s.nextOrderId == 0) = true
    · rw [if_pos h0] at h
      simp at h
    · rw [if_neg h0] at h ⊢
      cases hP : processItems now s.nextOrderId req.items
          ⟨insertOrderRow s req.user_id (genOrderNumber now rand) now, 0,
           [DbOp.beginTxn,
            DbOp.insertOrder req.user_id (genOrderNumber now rand)]⟩ with
      | error pr =>
        obtain ⟨e, o⟩ := pr
        rw [hP] at h
        simp at h
      | ok st =>
        rw [hP] at h
        dsimp only at h
        simp only [Except.ok.injEq, Prod.mk.injEq] at h
        exact ⟨by trivial, h.1.symm, h.2.symm, st, rfl, rfl⟩

theorem lockOrder_append (l1 l2 : List DbOp) :
    lockOrder (l1 ++ l2) = lockOrder l1 ++ lockOrder l2 := by
  unfold lockOrder
  exact List.filterMap_append l1 l2 _

theorem lockOrder_flatMap_lineOps (oid : Int) (items : List OrderItemRequest) :
    lockOrder (items.flatMap (lineOps oid)) = items.map (·.product_id) := by
  induction items with
  | nil => rfl
  | cons it rest ih =>
    rw [List.flatMap_cons, lockOrder_append, ih, List.map_cons]
    rfl

/-- Any failing run of `create_order` leaves the three tables unchanged,
and, when a transaction was opened, its trace ends with the rollback. -/
theorem create_order_error_state (now : String) (rand : Nat)
    (req : CreateOrderRequest) (s : Store) (e : Failure)
    (h : (create_order now rand req s).1 = .error e) :
    (create_order now rand req s).2.1.products = s.products ∧
    (create_order now rand req s).2.1.orders = s.orders ∧
    (create_order now rand req s).2.1.order_items = s.order_items ∧
    (validateCreateOrderRequest req = true →
      ∃ pre, (create_order now rand req s).2.2 = pre ++ [DbOp.rollback]) := by
  unfold create_order at h ⊢
  cases hv : validateCreateOrderRequest req with
  | false =>
    refine ⟨rfl, rfl, rfl, fun hvv => absurd hvv (by simp)⟩
  | true =>
    rw [hv] at h
    simp only [if_pos rfl, if_true] at h ⊢
    by_cases h0 : (s.nextOrderId == 0) = true
    · rw [if_pos h0]
      exact ⟨rfl, rfl, rfl, fun _ =>
        ⟨[DbOp.beginTxn, DbOp.insertOrder req.user_id
            (genOrderNumber now rand)], rfl⟩⟩
    · rw [if_neg h0] at h ⊢
      cases hP : processItems now s.nextOrderId req.items
          ⟨insertOrderRow s req.user_id (genOrderNumber now rand) now, 0,
           [DbOp.beginTxn,
            DbOp.insertOrder req.user_id (genOrderNumber now rand)]⟩ with
      | ok st =>
        rw [hP] at h
        dsimp only at h
        exact absurd h (by simp)
      | error pr =>
        obtain ⟨e1, o⟩ := pr
        dsimp only
        exact ⟨rfl, rfl, rfl, fun _ => ⟨o, rfl⟩⟩

/-- The final total-amount update maps an order row with the matching id
to the same row with the new total. -/
theorem mem_updateOrderTotal (s : Store) (oid : Int) (amt : Rat)
    (o : OrderRow) (ho : o ∈ s.orders) (hid : o.id = oid) :
    { o with total_amount := amt } ∈ (updateOrderTotal s oid amt).orders := by
  unfold updateOrderTotal
  have h := List.mem_map_of_mem
    (fun o' : OrderRow =>
      if o'.id == oid then { o' with total_amount := amt } else o') ho
  simpa [hid] using h

/-! ## Claim theorems -/

/-- C1: every call to `create_order` that ends in any failure — at any
step (`ProductNotFound`, `ProductUnavailable`, `InsufficientStock`,
`ConcurrentStockConflict`, `PersistenceFailure`, or the validation
rejection) — leaves the `products`, `orders` and `order_items` tables
exactly as they were before the call (all writes of the transaction are
rolled back, no partial commit), and whenever a transaction was opened the
statement trace ends with the rollback, issued before the failure is
reported. -/
theorem create_order_failure_rolls_back (now : String) (rand : Nat)
    (req : CreateOrderRequest) (s : Store) (e : Failure)
    (h : (create_order now rand req s).1 = .error e) :
    (create_order now rand req s).2.1.products = s.products ∧
    (create_order now rand req s).2.1.orders = s.orders ∧
    (create_order now rand req s).2.1.order_items = s.order_items ∧
    (validateCreateOrderRequest req = true →
      ∃ pre, (create_order now rand req s).2.2 = pre ++ [DbOp.rollback]) :=
  create_order_error_state now rand req s e h

/-- C1 witness: a placement referencing the nonexistent product 999 fails
and leaves all three tables of `exStore` unchanged, with the trace ending
in the rollback. -/
theorem create_order_failure_rolls_back_witness :
    (create_order "t" 0 ⟨7, [⟨999, 1⟩]⟩ exStore).2.1.products =
      exStore.products ∧
    (create_order "t" 0 ⟨7, [⟨999, 1⟩]⟩ exStore).2.1.orders =
      exStore.orders ∧
    (create_order "t" 0 ⟨7, [⟨999, 1⟩]⟩ exStore).2.1.order_items =
      exStore.order_items ∧
    ∃ pre, (create_order "t" 0 ⟨7, [⟨999, 1⟩]⟩ exStore).2.2 =
      pre ++ [DbOp.rollback] := by
  obtain ⟨h1, h2, h3, h4⟩ := create_order_failure_rolls_back "t" 0
    ⟨7, [⟨999, 1⟩]⟩ exStore (.productNotFound 999) rfl
  exact ⟨h1, h2, h3, h4 rfl⟩

/-- C9: an input with a non-positive buyer id, a non-positive product id
or quantity in any line, or an empty line list is exactly what the
validation layer rejects, and such an input is rejected as `InvalidInput`
with the store untouched and an empty statement trace — no transaction is
opened, so no order row, order-line row, or stock write occurs. -/
theorem invalid_input_rejected_before_txn (req : CreateOrderRequest)
    (now : String) (rand : Nat) (s : Store) :
    (validateCreateOrderRequest req = false ↔
      (req.user_id ≤ 0 ∨ req.items = [] ∨
        ∃ it ∈ req.items, it.product_id ≤ 0 ∨ it.quantity ≤ 0)) ∧
    (validateCreateOrderRequest req = false →
      create_order now rand req s = (.error .invalidInput, s, [])) := by
  constructor
  · unfold validateCreateOrderRequest
    constructor
    · intro hv
      rcases Bool.and_eq_false_iff.mp hv with hv1 | hv2
      · rcases Bool.and_eq_false_iff.mp hv1 with hu | he
        · left
          have := of_decide_eq_false hu
          omega
        · right; left
          exact List.isEmpty_iff.mp (by simpa using he)
      · right; right
        by_contra hno
        push_neg at hno
        have : req.items.all
            (fun it => 0 < it.product_id && 0 < it.quantity) = true := by
          rw [List.all_eq_true]
          intro it hit
          obtain ⟨hp, hq⟩ := hno it hit
          simp only [Bool.and_eq_true, decide_eq_true_eq]
          omega
        rw [this] at hv2
        cases hv2
    · intro hcase
      rcases hcase with hu | he | ⟨it, hit, hbad⟩
      · apply Bool.and_eq_false_iff.mpr
        left
        apply Bool.and_eq_false_iff.mpr
        left
        simpa using hu
      · apply Bool.and_eq_false_iff.mpr
        left
        apply Bool.and_eq_false_iff.mpr
        right
        simp [he]
      · apply Bool.and_eq_false_iff.mpr
        right
        rw [Bool.eq_false_iff]
        intro hall
        obtain ⟨hp, hq⟩ := (Bool.and_eq_true _ _).mp (List.all_eq_true.mp hall it hit)
        simp only [decide_eq_true_eq] at hp hq
        omega
  · intro hv
    unfold create_order
    rw [hv]
    rfl

/-- C9 witness: the empty line list is rejected as `InvalidInput` with the
store untouched and no statement issued. -/
theorem invalid_input_rejected_before_txn_witness :
    create_order "t" 0 ⟨7, []⟩ exStore = (.error .invalidInput, exStore, []) :=
  (invalid_input_rejected_before_txn ⟨7, []⟩ "t" 0 exStore).2 rfl

/-- C2: stock never goes negative — if all product stocks are nonnegative
before a call to `create_order`, they are nonnegative after it, whatever
the outcome (a decrement is only applied under the locked read's
sufficiency check and the conditional write's own `stock >= qty` clause) —
and on a successful placement every product's stock decreases by exactly
the total quantity requested for it (products not referenced are
unchanged, their requested total being zero). -/
theorem create_order_stock_safety (now : String) (rand : Nat)
    (req : CreateOrderRequest) (s : Store) :
    ((∀ p ∈ s.products, 0 ≤ p.stock) →
      ∀ p ∈ (create_order now rand req s).2.1.products, 0 ≤ p.stock) ∧
    (∀ oid num, (create_order now rand req s).1 = .ok (oid, num) →
      ∀ pid, stockOf (create_order now rand req s).2.1 pid =
        (stockOf s pid).map (fun v => v - totalRequested req.items pid)) := by
  constructor
  · intro hn
    cases hr : (create_order now rand req s).1 with
    | error e =>
      obtain ⟨hp, -, -, -⟩ := create_order_error_state now rand req s e hr
      rw [hp]
      exact hn
    | ok pr =>
      obtain ⟨oid, num⟩ := pr
      obtain ⟨-, -, -, st, hP, heq⟩ :=
        create_order_ok_elim now rand req s oid num hr
      obtain ⟨-, -, -, -, -, -, -, -, inn⟩ :=
        processItems_ok now s.nextOrderId req.items _ st hP
      have hprodeq : (create_order now rand req s).2.1.products =
          st.store.products := congrArg (fun t => t.2.1.products) heq
      rw [hprodeq]
      exact inn hn
  · intro oid num h pid
    obtain ⟨-, -, -, st, hP, heq⟩ :=
      create_order_ok_elim now rand req s oid num h
    obtain ⟨-, -, -, -, -, istock, -, -, -⟩ :=
      processItems_ok now s.nextOrderId req.items _ st hP
    have hco : (create_order now rand req s).2.1 =
        updateOrderTotal st.store s.nextOrderId st.total :=
      congrArg (fun t => t.2.1) heq
    rw [hco]
    exact istock pid

/-- C2 witness: placing (product 1, qty 3) on `exStore` succeeds; stock
stays nonnegative (the updated row for product 1 carries stock 2 ≥ 0) and
product 1's stock reads back as exactly 5 − 3 = 2. -/
theorem create_order_stock_safety_witness :
    (0 : Int) ≤ (Product.mk 1 2 10 false "t").stock ∧
    stockOf (create_order "t" 0 ⟨7, [⟨1, 3⟩]⟩ exStore).2.1 1 = some 2 := by
  constructor
  · exact (create_order_stock_safety "t" 0 ⟨7, [⟨1, 3⟩]⟩ exStore).1
      (by decide) (Product.mk 1 2 10 false "t") (by decide)
  · have h := (create_order_stock_safety "t" 0 ⟨7, [⟨1, 3⟩]⟩ exStore).2
      1 "ORDt0000" rfl 1
    rw [h]
    rfl

/-- C10: when the same product id appears in several lines of one request,
each occurrence is processed independently — on success the order gets one
`order_items` row per request line, the statement trace shows one locked
read, one conditional decrement and one line insert per occurrence — and a
placement can only succeed when each referenced product exists and its
initial stock covers the summed quantity over all its occurrences. -/
theorem duplicate_lines_cumulative (now : String) (rand : Nat)
    (req : CreateOrderRequest) (s : Store) (oid : Int) (num : String)
    (h : (create_order now rand req s).1 = .ok (oid, num))
    (hn : ∀ p ∈ s.products, 0 ≤ p.stock) :
    (create_order now rand req s).2.1.order_items =
      s.order_items ++ req.items.map (mkItemRow s oid now) ∧
    (create_order now rand req s).2.2 =
      [DbOp.beginTxn, DbOp.insertOrder req.user_id num] ++
        req.items.flatMap (lineOps oid) ++
        [DbOp.updateOrderTotal oid
          ((req.items.map fun it =>
            unitPriceOf s it.product_id * (it.quantity : Rat)).sum),
         DbOp.commit] ∧
    (∀ it ∈ req.items, ∃ v, stockOf s it.product_id = some v ∧
      totalRequested req.items it.product_id ≤ v) := by
  obtain ⟨-, hoid, hnum, st, hP, heq⟩ :=
    create_order_ok_elim now rand req s oid num h
  subst hoid
  subst hnum
  obtain ⟨-, -, iitems, itot, iops, istock, -, isome, inn⟩ :=
    processItems_ok now s.nextOrderId req.items _ st hP
  refine ⟨?_, ?_, ?_⟩
  · have hoi : (create_order now rand req s).2.1.order_items =
        st.store.order_items := congrArg (fun t => t.2.1.order_items) heq
    rw [hoi]
    exact iitems
  · have htr : (create_order now rand req s).2.2 =
        st.ops ++ [DbOp.updateOrderTotal s.nextOrderId st.total,
          DbOp.commit] := congrArg (fun t => t.2.2) heq
    rw [htr, iops, itot, zero_add, List.append_assoc]
    rfl
  · intro it hit
    have hsome : (selectForUpdate s it.product_id).isSome := isome it hit
    obtain ⟨p, hp⟩ := Option.isSome_iff_exists.mp hsome
    have hs0 : stockOf s it.product_id = some p.stock := by
      unfold stockOf
      unfold selectForUpdate at hp
      rw [hp]
      rfl
    have hfin : ∀ q ∈ st.store.products, 0 ≤ q.stock := inn hn
    have hstv : stockOf st.store it.product_id =
        some (p.stock - totalRequested req.items it.product_id) := by
      rw [istock it.product_id]
      show Option.map (fun v => v - totalRequested req.items it.product_id)
        (stockOf s it.product_id) = _
      rw [hs0]
      rfl
    unfold stockOf at hstv
    obtain ⟨row, hrow, hrowstock⟩ := Option.map_eq_some'.mp hstv
    have hrmem : row ∈ st.store.products := List.mem_of_find?_eq_some hrow
    have hnonneg := hfin row hrmem
    exact ⟨p.stock, hs0, by omega⟩

/-- C10 witness: the request with two lines for product 1 (qty 3 and
qty 2) succeeds on `exStore` (initial stock 5 covers 3 + 2) and creates
one `order_items` row per line. -/
theorem duplicate_lines_cumulative_witness :
    (create_order "t" 0 ⟨7, [⟨1, 3⟩, ⟨1, 2⟩]⟩ exStore).2.1.order_items =
      exStore.order_items ++
        ([⟨1, 3⟩, ⟨1, 2⟩] : List OrderItemRequest).map
          (mkItemRow exStore 1 "t") :=
  (duplicate_lines_cumulative "t" 0 ⟨7, [⟨1, 3⟩, ⟨1, 2⟩]⟩ exStore 1
    "ORDt0000" rfl (by decide)).1

/-- C3: on every successful placement the rows appended to `order_items`
all reference the new order, each carries `subtotal = unit_price ×
quantity` with `unit_price` the price snapshot read (under the row lock)
from the pre-call store, and the committed order row's `total_amount`
equals the sum of those rows' subtotals. -/
theorem create_order_total_consistency (now : String) (rand : Nat)
    (req : CreateOrderRequest) (s : Store) (oid : Int) (num : String)
    (h : (create_order now rand req s).1 = .ok (oid, num)) :
    ∃ added, (create_order now rand req s).2.1.order_items =
        s.order_items ++ added ∧
      (∀ r ∈ added, r.order_id = oid ∧
        r.subtotal = r.unit_price * (r.quantity : Rat) ∧
        r.unit_price = unitPriceOf s r.product_id) ∧
      ∃ orow ∈ (create_order now rand req s).2.1.orders, orow.id = oid ∧
        orow.total_amount = (added.map (·.subtotal)).sum := by
  obtain ⟨-, hoid, hnum, st, hP, heq⟩ :=
    create_order_ok_elim now rand req s oid num h
  subst hoid
  subst hnum
  obtain ⟨iord, -, iitems, itot, -, -, -, -, -⟩ :=
    processItems_ok now s.nextOrderId req.items _ st hP
  refine ⟨req.items.map (mkItemRow s s.nextOrderId now), ?_, ?_, ?_⟩
  · have hoi : (create_order now rand req s).2.1.order_items =
        st.store.order_items := congrArg (fun t => t.2.1.order_items) heq
    rw [hoi]
    exact iitems
  · intro r hr
    obtain ⟨it, hit, rfl⟩ := List.mem_map.mp hr
    exact ⟨rfl, rfl, rfl⟩
  · have ho : (create_order now rand req s).2.1.orders =
        (updateOrderTotal st.store s.nextOrderId st.total).orders :=
      congrArg (fun t => t.2.1.orders) heq
    rw [ho]
    have hmem : pendingOrderRow s req.user_id (genOrderNumber now rand)
        now ∈ st.store.orders := by
      rw [iord]
      show _ ∈ s.orders ++ [_]
      exact List.mem_append.mpr (Or.inr (List.mem_singleton.mpr rfl))
    refine ⟨_, mem_updateOrderTotal st.store s.nextOrderId st.total _
      hmem rfl, rfl, ?_⟩
    show st.total = _
    rw [itot, zero_add, List.map_map]
    rfl

/-- C3 witness: the one-line placement (product 1, qty 3) on `exStore`
commits an order whose lines and total satisfy the consistency
properties. -/
theorem create_order_total_consistency_witness :
    ∃ added,
      (create_order "t" 0 ⟨7, [⟨1, 3⟩]⟩ exStore).2.1.order_items =
        exStore.order_items ++ added ∧
      (∀ r ∈ added, r.order_id = 1 ∧
        r.subtotal = r.unit_price * (r.quantity : Rat) ∧
        r.unit_price = unitPriceOf exStore r.product_id) ∧
      ∃ orow ∈ (create_order "t" 0 ⟨7, [⟨1, 3⟩]⟩ exStore).2.1.orders,
        orow.id = 1 ∧ orow.total_amount = (added.map (·.subtotal)).sum :=
  create_order_total_consistency "t" 0 ⟨7, [⟨1, 3⟩]⟩ exStore 1
    "ORDt0000" rfl

/-- C8: the order row is inserted in `pending` status with zero total
amount; the generated id is captured (the returned order id is the store's
auto-increment value); a falsy `lastrowid` aborts with
`PersistenceFailure`; and on success the committed order row still has
status `pending` while its total amount is written by a final update
statement that comes after all per-line statements, just before the
commit. -/
theorem order_insert_and_total_update (now : String) (rand : Nat)
    (req : CreateOrderRequest) (s : Store)
    (hv : validateCreateOrderRequest req = true) :
    ((insertOrderRow s req.user_id (genOrderNumber now rand) now).orders =
      s.orders ++ [pendingOrderRow s req.user_id
        (genOrderNumber now rand) now]) ∧
    (pendingOrderRow s req.user_id (genOrderNumber now rand) now).status =
      "pending" ∧
    (pendingOrderRow s req.user_id (genOrderNumber now rand)
      now).total_amount = 0 ∧
    (s.nextOrderId = 0 →
      (create_order now rand req s).1 = .error .persistenceFailure) ∧
    (∀ oid num, (create_order now rand req s).1 = .ok (oid, num) →
      oid = s.nextOrderId ∧ num = genOrderNumber now rand ∧
      ∃ orow ∈ (create_order now rand req s).2.1.orders,
        orow.id = oid ∧ orow.status = "pending" ∧
        orow.user_id = req.user_id ∧ orow.number = num ∧
        ∃ mid, (create_order now rand req s).2.2 =
          DbOp.beginTxn :: DbOp.insertOrder req.user_id num :: mid ++
            [DbOp.updateOrderTotal oid orow.total_amount, DbOp.commit]) := by
  refine ⟨rfl, rfl, rfl, ?_, ?_⟩
  · intro h0
    unfold create_order
    rw [hv]
    simp only [if_pos rfl]
    rw [h0]
    rfl
  · intro oid num h
    obtain ⟨-, hoid, hnum, st, hP, heq⟩ :=
      create_order_ok_elim now rand req s oid num h
    subst hoid
    subst hnum
    obtain ⟨iord, -, -, -, iops, -, -, -, -⟩ :=
      processItems_ok now s.nextOrderId req.items _ st hP
    refine ⟨rfl, rfl, ?_⟩
    have ho : (create_order now rand req s).2.1.orders =
        (updateOrderTotal st.store s.nextOrderId st.total).orders :=
      congrArg (fun t => t.2.1.orders) heq
    rw [ho]
    have hmem : pendingOrderRow s req.user_id (genOrderNumber now rand)
        now ∈ st.store.orders := by
      rw [iord]
      show _ ∈ s.orders ++ [_]
      exact List.mem_append.mpr (Or.inr (List.mem_singleton.mpr rfl))
    refine ⟨_, mem_updateOrderTotal st.store s.nextOrderId st.total _
      hmem rfl, rfl, rfl, rfl, rfl, req.items.flatMap (lineOps s.nextOrderId),
      ?_⟩
    have htr : (create_order now rand req s).2.2 =
        st.ops ++ [DbOp.updateOrderTotal s.nextOrderId st.total,
          DbOp.commit] := congrArg (fun t => t.2.2) heq
    rw [htr, iops]
    rfl

/-- C8 witness: on a store whose auto-increment counter reports 0 the
placement fails with `PersistenceFailure`; on `exStore` the returned order
id is the pre-call auto-increment value 1. -/
theorem order_insert_and_total_update_witness :
    (create_order "t" 0 ⟨7, [⟨1, 1⟩]⟩ exStoreZero).1 =
      .error .persistenceFailure ∧
    (1 : Int) = exStore.nextOrderId :=
  ⟨(order_insert_and_total_update "t" 0 ⟨7, [⟨1, 1⟩]⟩ exStoreZero
      (by decide)).2.2.2.1 rfl,
   ((order_insert_and_total_update "t" 0 ⟨7, [⟨1, 1⟩]⟩ exStore
      (by decide)).2.2.2.2 1 "ORDt0000" rfl).1⟩

/-- C4: for each requested line the loop performs the locked read and then
checks in this order — a missing row aborts with `ProductNotFound` naming
the product, else a set soft-delete flag aborts with `ProductUnavailable`,
else read stock below the requested quantity aborts with
`InsufficientStock` carrying available vs. requested — and any per-line
failure aborts the whole `create_order` call with that same failure. -/
theorem line_checks_in_order :
    (∀ (now : String) (oid : Int) (st : LoopState) (it : OrderItemRequest),
      selectForUpdate st.store it.product_id = none →
      processItem now oid st it = .error (.productNotFound it.product_id,
        st.ops ++ [DbOp.selectForUpdate it.product_id])) ∧
    (∀ (now : String) (oid : Int) (st : LoopState) (it : OrderItemRequest)
      (p : Product), selectForUpdate st.store it.product_id = some p →
      p.is_deleted = true →
      processItem now oid st it = .error (.productUnavailable it.product_id,
        st.ops ++ [DbOp.selectForUpdate it.product_id])) ∧
    (∀ (now : String) (oid : Int) (st : LoopState) (it : OrderItemRequest)
      (p : Product), selectForUpdate st.store it.product_id = some p →
      p.is_deleted = false → p.stock < it.quantity →
      processItem now oid st it = .error
        (.insufficientStock it.product_id p.stock it.quantity,
         st.ops ++ [DbOp.selectForUpdate it.product_id])) ∧
    (∀ (now : String) (rand : Nat) (req : CreateOrderRequest) (s : Store)
      (e : Failure) (o : List DbOp),
      validateCreateOrderRequest req = true → s.nextOrderId ≠ 0 →
      processItems now s.nextOrderId req.items
        ⟨insertOrderRow s req.user_id (genOrderNumber now rand) now, 0,
         [DbOp.beginTxn, DbOp.insertOrder req.user_id
           (genOrderNumber now rand)]⟩ = .error (e, o) →
      (create_order now rand req s).1 = .error e) := by
  refine ⟨?_, ?_, ?_, ?_⟩
  · intro now oid st it hf
    unfold processItem
    rw [hf]
  · intro now oid st it p hf hd
    unfold processItem
    rw [hf]
    dsimp only
    rw [if_pos hd]
  · intro now oid st it p hf hd hs
    unfold processItem
    rw [hf]
    dsimp only
    rw [if_neg (by simp [hd]), if_pos hs]
  · intro now rand req s e o hv h0 hP
    unfold create_order
    rw [hv]
    simp only [if_pos rfl]
    have hne : ¬(s.nextOrderId == 0) = true := by simpa using h0
    rw [if_neg hne, hP]
    rfl

/-- C4 witness: on `exStore`, the missing product 999, the soft-deleted
product 3, and requesting 5 of product 2 (stock 2) produce exactly the
three failure kinds, and a whole placement naming product 999 fails with
`ProductNotFound`. -/
theorem line_checks_in_order_witness :
    processItem "t" 1 ⟨exStore, 0, []⟩ ⟨999, 1⟩ =
      .error (.productNotFound 999, [] ++ [DbOp.selectForUpdate 999]) ∧
    processItem "t" 1 ⟨exStore, 0, []⟩ ⟨3, 1⟩ =
      .error (.productUnavailable 3, [] ++ [DbOp.selectForUpdate 3]) ∧
    processItem "t" 1 ⟨exStore, 0, []⟩ ⟨2, 5⟩ =
      .error (.insufficientStock 2 2 5, [] ++ [DbOp.selectForUpdate 2]) ∧
    (create_order "t" 0 ⟨7, [⟨999, 1⟩]⟩ exStore).1 =
      .error (.productNotFound 999) :=
  ⟨line_checks_in_order.1 "t" 1 ⟨exStore, 0, []⟩ ⟨999, 1⟩ rfl,
   line_checks_in_order.2.1 "t" 1 ⟨exStore, 0, []⟩ ⟨3, 1⟩
     ⟨3, 4, 1, true, "t0"⟩ rfl rfl,
   line_checks_in_order.2.2.1 "t" 1 ⟨exStore, 0, []⟩ ⟨2, 5⟩
     ⟨2, 2, 3, false, "t0"⟩ rfl rfl (by decide),
   line_checks_in_order.2.2.2 "t" 0 ⟨7, [⟨999, 1⟩]⟩ exStore
     (.productNotFound 999)
     [DbOp.beginTxn, DbOp.insertOrder 7 (genOrderNumber "t" 0),
      DbOp.selectForUpdate 999] rfl (by decide) rfl⟩

/-- C5: the stock decrement is a conditional write — a row is decremented
only when it matches `id = pid` and still has `stock >= qty` at write
time, rows not matching are untouched, and the affected-row count is zero
exactly when no row matches; a zero row count makes the code abort with
the `ConcurrentStockConflict` failure (lines 217–220), a kind distinct
from `InsufficientStock`, while a nonzero count lets the write stand. -/
theorem conditional_decrement_conflict :
    (∀ (s : Store) (pid qty : Int) (now : String) (p : Product),
      p ∈ s.products → ¬(p.id = pid ∧ qty ≤ p.stock) →
      p ∈ (updateStockConditional s pid qty now).1.products) ∧
    (∀ (s : Store) (pid qty : Int) (now : String) (q : Product),
      q ∈ (updateStockConditional s pid qty now).1.products →
      ∃ p ∈ s.products, q = stockDecApplied pid qty now p ∧
        (¬(p.id = pid ∧ qty ≤ p.stock) → q = p) ∧
        ((p.id = pid ∧ qty ≤ p.stock) → q.stock = p.stock - qty)) ∧
    (∀ (s : Store) (pid qty : Int) (now : String),
      (updateStockConditional s pid qty now).2 = 0 ↔
        ∀ p ∈ s.products, ¬(p.id = pid ∧ qty ≤ p.stock)) ∧
    (∀ (s : Store) (pid qty : Int) (now : String),
      (updateStockConditional s pid qty now).2 = 0 →
      applyStockDecrement s pid qty now =
        .error (.concurrentStockConflict pid)) ∧
    (∀ (s : Store) (pid qty : Int) (now : String),
      (updateStockConditional s pid qty now).2 ≠ 0 →
      applyStockDecrement s pid qty now =
        .ok (updateStockConditional s pid qty now).1) ∧
    (∀ (pid pid' avail reqd : Int), Failure.concurrentStockConflict pid ≠
      Failure.insufficientStock pid' avail reqd) := by
  have hfalse : ∀ (pid qty : Int) (p : Product),
      ¬(p.id = pid ∧ qty ≤ p.stock) →
      (p.id == pid && decide (qty ≤ p.stock)) = false := by
    intro pid qty p hcond
    rcases not_and_or.mp hcond with h1 | h2
    · exact Bool.and_eq_false_iff.mpr (Or.inl (beq_eq_false_iff_ne.mpr h1))
    · exact Bool.and_eq_false_iff.mpr (Or.inr (decide_eq_false h2))
  refine ⟨?_, ?_, ?_, ?_, ?_, ?_⟩
  · intro s pid qty now p hp hcond
    have himg := List.mem_map_of_mem (stockDecApplied pid qty now) hp
    have hfix : stockDecApplied pid qty now p = p := by
      unfold stockDecApplied
      rw [hfalse pid qty p hcond]
      rfl
    rw [hfix] at himg
    exact himg
  · intro s pid qty now q hq
    obtain ⟨p, hp, hpq⟩ := List.mem_map.mp hq
    refine ⟨p, hp, hpq.symm, ?_, ?_⟩
    · intro hcond
      rw [← hpq]
      unfold stockDecApplied
      rw [hfalse pid qty p hcond]
      rfl
    · intro hcond
      rw [← hpq]
      unfold stockDecApplied
      have hc : (p.id == pid && decide (qty ≤ p.stock)) = true := by
        simp [hcond.1, hcond.2]
      rw [hc]
      rfl
  · intro s pid qty now
    unfold updateStockConditional
    dsimp only
    rw [List.length_eq_zero, List.filter_eq_nil]
    constructor
    · intro hall p hp hcond
      exact hall p hp (by simp [hcond.1, hcond.2])
    · intro hall p hp
      rw [hfalse pid qty p (hall p hp)]
      simp
  · intro s pid qty now h
    unfold applyStockDecrement
    rw [if_pos (by simp [h])]
  · intro s pid qty now h
    unfold applyStockDecrement
    have hne : ¬((updateStockConditional s pid qty now).2 == 0) = true := by
      simpa using h
    rw [if_neg hne]
  · intro pid pid' avail reqd h
    exact Failure.noConfusion h

/-- C5 witness: on `exStore`, a write for product 1 with quantity 3 leaves
the row of product 2 untouched; a write for the absent product 9 affects
zero rows and aborts with `ConcurrentStockConflict`; the two failure kinds
are distinct. -/
theorem conditional_decrement_conflict_witness :
    (Product.mk 2 2 3 false "t0") ∈
      (updateStockConditional exStore 1 3 "t").1.products ∧
    applyStockDecrement exStore 9 1 "t" =
      .error (.concurrentStockConflict 9) ∧
    Failure.concurrentStockConflict 1 ≠ Failure.insufficientStock 1 2 3 :=
  ⟨conditional_decrement_conflict.1 exStore 1 3 "t"
     (Product.mk 2 2 3 false "t0") (by decide) (by decide),
   conditional_decrement_conflict.2.2.2.1 exStore 9 1 "t" rfl,
   conditional_decrement_conflict.2.2.2.2.2 1 1 2 3⟩

/-- C6 counterexample: the claim that row locks are acquired in ascending
product id order fails on the code — for the request whose lines name
product 2 and then product 1, the locked reads are issued in the order
[2, 1], which is not ascending. -/
theorem lock_order_not_ascending_cex :
    lockOrder (create_order "t" 0 ⟨7, [⟨2, 1⟩, ⟨1, 1⟩]⟩ exStore).2.2 =
      [2, 1] ∧
    ¬ List.Sorted (· ≤ ·)
      (lockOrder (create_order "t" 0 ⟨7, [⟨2, 1⟩, ⟨1, 1⟩]⟩ exStore).2.2) := by
  constructor
  · rfl
  · have h21 : lockOrder
        (create_order "t" 0 ⟨7, [⟨2, 1⟩, ⟨1, 1⟩]⟩ exStore).2.2 =
        ([2, 1] : List Int) := rfl
    rw [h21]
    decide

/-- C6 amended: row locks are acquired in the order the caller supplied
the lines — on every successful placement the sequence of `FOR UPDATE`
reads is exactly the request's product-id sequence, not a reordering into
ascending product id. -/
theorem lock_order_follows_request (now : String) (rand : Nat)
    (req : CreateOrderRequest) (s : Store) (oid : Int) (num : String)
    (h : (create_order now rand req s).1 = .ok (oid, num)) :
    lockOrder (create_order now rand req s).2.2 =
      req.items.map (·.product_id) := by
  obtain ⟨-, -, -, st, hP, heq⟩ :=
    create_order_ok_elim now rand req s oid num h
  obtain ⟨-, -, -, -, iops, -, -, -, -⟩ :=
    processItems_ok now s.nextOrderId req.items _ st hP
  have htr : (create_order now rand req s).2.2 =
      st.ops ++ [DbOp.updateOrderTotal s.nextOrderId st.total,
        DbOp.commit] := congrArg (fun t => t.2.2) heq
  rw [htr, iops]
  show lockOrder (([DbOp.beginTxn,
      DbOp.insertOrder req.user_id (genOrderNumber now rand)] ++
      req.items.flatMap (lineOps s.nextOrderId)) ++
      [DbOp.updateOrderTotal s.nextOrderId st.total, DbOp.commit]) = _
  rw [lockOrder_append, lockOrder_append, lockOrder_flatMap_lineOps]
  show ([] ++ req.items.map (·.product_id)) ++ [] = _
  simp

/-- C6 amended witness: for the two-line request naming product 2 then
product 1 the lock acquisition order is the caller's order [2, 1]. -/
theorem lock_order_follows_request_witness :
    lockOrder (create_order "t" 0 ⟨7, [⟨2, 1⟩, ⟨1, 1⟩]⟩ exStore).2.2 =
      ([⟨2, 1⟩, ⟨1, 1⟩] : List OrderItemRequest).map (·.product_id) :=
  lock_order_follows_request "t" 0 ⟨7, [⟨2, 1⟩, ⟨1, 1⟩]⟩ exStore 1
    "ORDt0000" rfl

theorem hexDigit_inj :
    ∀ a, a < 16 → ∀ b, b < 16 → hexDigit a = hexDigit b → a = b := by
  decide

/-- C7: an order number is `"ORD"`, the second-resolution timestamp and a
two-byte random suffix: within one timestamp the map from the 16-bit
random value to the order number is injective (so the suffix carries the
full 16 bits of entropy), and the number is built, for any store
whatsoever, before any statement other than the transaction begin — the
first two trace entries are the begin and the order insert already
carrying the number, so no uniqueness pre-read and no stored counter are
consulted. -/
theorem order_number_entropy :
    (∀ (now : String) (r1 r2 : Nat), r1 < 65536 → r2 < 65536 →
      genOrderNumber now r1 = genOrderNumber now r2 → r1 = r2) ∧
    (∀ (now : String) (rand : Nat) (req : CreateOrderRequest) (s : Store),
      validateCreateOrderRequest req = true →
      ((create_order now rand req s).2.2).take 2 =
        [DbOp.beginTxn,
         DbOp.insertOrder req.user_id (genOrderNumber now rand)]) := by
  constructor
  · intro now r1 r2 h1 h2 h
    have hd := congrArg String.data h
    simp only [genOrderNumber, String.data_append] at hd
    have hl := List.append_cancel_left hd
    have hx : [hexDigit (r1 / 4096 % 16), hexDigit (r1 / 256 % 16),
        hexDigit (r1 / 16 % 16), hexDigit (r1 % 16)] =
        [hexDigit (r2 / 4096 % 16), hexDigit (r2 / 256 % 16),
         hexDigit (r2 / 16 % 16), hexDigit (r2 % 16)] := hl
    simp only [List.cons.injEq, and_true] at hx
    obtain ⟨e3, e2, e1, e0⟩ := hx
    have d3 := hexDigit_inj _ (Nat.mod_lt _ (by decide)) _
      (Nat.mod_lt _ (by decide)) e3
    have d2 := hexDigit_inj _ (Nat.mod_lt _ (by decide)) _
      (Nat.mod_lt _ (by decide)) e2
    have d1 := hexDigit_inj _ (Nat.mod_lt _ (by decide)) _
      (Nat.mod_lt _ (by decide)) e1
    have d0 := hexDigit_inj _ (Nat.mod_lt _ (by decide)) _
      (Nat.mod_lt _ (by decide)) e0
    omega
  · intro now rand req s hv
    unfold create_order
    rw [hv]
    simp only [if_pos rfl]
    by_cases h0 : (s.nextOrderId == 0) = true
    · rw [if_pos h0]
      rfl
    · rw [if_neg h0]
      cases hP : processItems now s.nextOrderId req.items
          ⟨insertOrderRow s req.user_id (genOrderNumber now rand) now, 0,
           [DbOp.beginTxn,
            DbOp.insertOrder req.user_id (genOrderNumber now rand)]⟩ with
      | error pr =>
        obtain ⟨e, o⟩ := pr
        obtain ⟨t, ht⟩ := processItems_error_ops now s.nextOrderId
          req.items _ e o hP
        dsimp only
        rw [ht]
        rfl
      | ok st =>
        obtain ⟨-, -, -, -, iops, -, -, -, -⟩ :=
          processItems_ok now s.nextOrderId req.items _ st hP
        dsimp only
        rw [iops]
        rfl

/-- C7 witness: two equal order numbers built in the same second force
equal random values, and on `exStore` the trace opens with the begin and
the insert carrying the generated number. -/
theorem order_number_entropy_witness :
    (5 : Nat) = 5 ∧
    ((create_order "t" 3 ⟨7, [⟨1, 1⟩]⟩ exStore).2.2).take 2 =
      [DbOp.beginTxn, DbOp.insertOrder 7 (genOrderNumber "t" 3)] :=
  ⟨order_number_entropy.1 "t" 5 5 (by decide) (by decide) rfl,
   order_number_entropy.2 "t" 3 ⟨7, [⟨1, 1⟩]⟩ exStore (by decide)⟩

end ECommerce
